import Mathlib

/-
Shallow embedding of the PasteBox file-sharing backend, `src/server/src/controllers/file.controller.js`.
Timestamps are integers (milliseconds since epoch, as JavaScript `Date.now()`); the
logical clock `now` is passed explicitly to every operation that reads the clock.
The Mongo collections `File` and `GuestFile` are lists of records; `findOne` and
`findById` become `List.find?`, and a Mongoose `doc.save()` becomes `saveFile`,
replacing every record sharing the document id. External collaborators (bcrypt,
the S3 signed-URL generator) are modelled as deterministic string functions.
-/

namespace PasteBox

/-- File status values occurring in the controller: active, inactive, expired, deleted. -/
inductive Status where
  | active
  | inactive
  | expired
  | deleted
deriving Repr, DecidableEq

/-- A `File` or `GuestFile` document, with the fields the controller reads or writes. -/
structure FileRecord where
  id : Nat
  name : String
  mimeType : String
  size : Nat
  path : String
  status : Status
  hasExpiry : Bool
  expiresAt : Option Int
  isPasswordProtected : Bool
  password : Option String
  shortUrl : String
  downloadedContent : Nat
  createdBy : String
deriving Repr, DecidableEq

/-- A `User` document, restricted to the counter fields the controller touches. -/
structure User where
  id : String
  fullname : String
  totalUploads : Nat
  totalDownloads : Nat
  imageCount : Nat
  videoCount : Nat
  documentCount : Nat
deriving Repr, DecidableEq

/-- The error outcomes of the controller endpoints, by the message each returns. -/
inductive ApiError where
  | notFound
  | unavailable
  | expired
  | passwordRequired
  | incorrectPassword
  | notProtected
  | alreadyDeleted
  | invalidStatus
  | noOp
  | storageError
deriving Repr, DecidableEq

/-- The HTTP status code each error is returned with in the source. -/
def httpStatus : ApiError → Nat
  | .notFound => 404
  | .unavailable => 403
  | .expired => 410
  | .passwordRequired => 401
  | .incorrectPassword => 403
  | .notProtected => 400
  | .alreadyDeleted => 400
  | .invalidStatus => 400
  | .noOp => 400
  | .storageError => 500

/-- Model of `bcrypt.hash(p, 10)`: a deterministic injective stand-in for the hash. -/
def bcryptHash (p : String) : String := "bcrypt-hash-of:" ++ p

/-- Model of `bcrypt.compare(p, h)`: true exactly when `h` is the hash of `p`. -/
def bcryptCompare (p h : String) : Bool := bcryptHash p == h

/-- Source helper `buildKey`: the object-store key for a stored file name. -/
def buildKey (fileName : String) : String := "file-share-app/" ++ fileName

/-- Model of `signedDownloadUrl`: the external S3 presigner, as a deterministic URL. -/
def signedDownloadUrl (bucket key fileName : String) : String :=
  "signed://" ++ bucket ++ "/" ++ key ++ "?filename=" ++ fileName

/-- Source `File.findById(fileId)` over the collection list. -/
def findById (store : List FileRecord) (fileId : Nat) : Option FileRecord :=
  store.find? (fun f => f.id == fileId)

/-- Mongoose `doc.save()`: persist `f`, replacing the record with the same id. -/
def saveFile (store : List FileRecord) (f : FileRecord) : List FileRecord :=
  store.map (fun g => if g.id == f.id then f else g)

/-- Mongoose `user.save()`: persist `u`, replacing the user with the same id. -/
def saveUser (users : List User) (u : User) : List User :=
  users.map (fun v => if v.id == u.id then u else v)

/-- The check `file.expiresAt && new Date(file.expiresAt) < new Date()`:
an expiry timestamp is set and strictly before `now`. -/
def isExpiredAt (now : Int) (f : FileRecord) : Bool :=
  match f.expiresAt with
  | some e => e < now
  | none => false

/-- JavaScript truthiness of an optional string request field: `!v` holds for a
missing field and for the empty string. -/
def strTruthy : Option String → Bool
  | none => false
  | some s => s ≠ ""

/-- JavaScript truthiness of an optional numeric request field: missing and `0`
are falsy. -/
def numTruthy : Option Int → Bool
  | none => false
  | some v => v ≠ 0

/-- The `fileObj` literal built inside `uploadFiles` (user upload): `hasExpiry`
is the string comparison `hasExpiry === 'true'`; `expiresAt` is now plus the
supplied hours when that holds, otherwise now plus 10 days; status starts
active; the short URL is `/f/` plus the generated code; the password branch
hashes and sets `isPasswordProtected` only when `isPassword === 'true'`. -/
def uploadFileObj (now : Int) (isPassword hasExpiry : String) (expiresAtHours : Int)
    (password : String) (freshId : Nat) (fileUrl finalFileName mimetype : String)
    (size : Nat) (shortCode : String) (userId : String) : FileRecord :=
  let base : FileRecord :=
    { id := freshId
      name := finalFileName
      mimeType := mimetype
      size := size
      path := fileUrl
      status := Status.active
      hasExpiry := hasExpiry == "true"
      expiresAt :=
        if hasExpiry == "true" then some (now + expiresAtHours * 3600000)
        else some (now + 10 * 24 * 3600000)
      isPasswordProtected := false
      password := none
      shortUrl := "/f/" ++ shortCode
      downloadedContent := 0
      createdBy := userId }
  if isPassword == "true" then
    { base with password := some (bcryptHash password), isPasswordProtected := true }
  else base

/-- The `fileObj` literal built inside `uploadFilesGuest`: identical shape, with
the `/g/` namespace and a generated guest owner label. -/
def uploadGuestFileObj (now : Int) (isPassword hasExpiry : String) (expiresAtHours : Int)
    (password : String) (freshId : Nat) (fileUrl finalFileName mimetype : String)
    (size : Nat) (shortCode username : String) : FileRecord :=
  let base : FileRecord :=
    { id := freshId
      name := finalFileName
      mimeType := mimetype
      size := size
      path := fileUrl
      status := Status.active
      hasExpiry := hasExpiry == "true"
      expiresAt :=
        if hasExpiry == "true" then some (now + expiresAtHours * 3600000)
        else some (now + 10 * 24 * 3600000)
      isPasswordProtected := false
      password := none
      shortUrl := "/g/" ++ shortCode
      downloadedContent := 0
      createdBy := "guest_" ++ username }
  if isPassword == "true" then
    { base with password := some (bcryptHash password), isPasswordProtected := true }
  else base

/-- Result of an operation on the user file store that also touches users:
the HTTP outcome (signed URL on success), the file store, the user store. -/
structure DlResult where
  res : Except ApiError String
  files : List FileRecord
  users : List User
deriving Repr

/-- Result of an operation touching only the guest file store. -/
structure GuestDlResult where
  res : Except ApiError String
  gfiles : List FileRecord
deriving Repr

/-- The shared success path of `downloadInfo` and `downloadFile`: sign a URL for
the object key, increment `downloadedContent` and save, then best-effort
increment the owner's `totalDownloads` (skipped when the owner lookup fails). -/
def issueDownload (bucket : String) (store : List FileRecord) (users : List User)
    (file : FileRecord) : DlResult :=
  let url := signedDownloadUrl bucket (buildKey file.name) file.name
  let f2 := { file with downloadedContent := file.downloadedContent + 1 }
  match users.find? (fun u => u.id == file.createdBy) with
  | some u =>
      ⟨Except.ok url, saveFile store f2,
        saveUser users { u with totalDownloads := u.totalDownloads + 1 }⟩
  | none => ⟨Except.ok url, saveFile store f2, users⟩

/-- Controller `downloadInfo` (user short link): look up `/f/` plus the code; 404 when
absent; 403 when status is not active; when the expiry has passed, flip the
status to expired, save, and return 410; otherwise issue the signed URL. -/
def downloadInfo (now : Int) (bucket : String) (store : List FileRecord)
    (users : List User) (shortCode : String) : DlResult :=
  match store.find? (fun f => f.shortUrl == "/f/" ++ shortCode) with
  | none => ⟨Except.error ApiError.notFound, store, users⟩
  | some file =>
    if file.status ≠ Status.active then ⟨Except.error ApiError.unavailable, store, users⟩
    else if isExpiredAt now file then
      ⟨Except.error ApiError.expired,
        saveFile store { file with status := Status.expired }, users⟩
    else issueDownload bucket store users file

/-- The success path of `guestDownloadInfo`: no owner counters exist for guests. -/
def issueGuestDownload (bucket : String) (gstore : List FileRecord)
    (file : FileRecord) : GuestDlResult :=
  let url := signedDownloadUrl bucket (buildKey file.name) file.name
  ⟨Except.ok url, saveFile gstore { file with downloadedContent := file.downloadedContent + 1 }⟩

/-- Controller `guestDownloadInfo`: the same resolution over the guest store and the
`/g/` namespace. -/
def guestDownloadInfo (now : Int) (bucket : String) (gstore : List FileRecord)
    (shortCode : String) : GuestDlResult :=
  match gstore.find? (fun f => f.shortUrl == "/g/" ++ shortCode) with
  | none => ⟨Except.error ApiError.notFound, gstore⟩
  | some file =>
    if file.status ≠ Status.active then ⟨Except.error ApiError.unavailable, gstore⟩
    else if isExpiredAt now file then
      ⟨Except.error ApiError.expired,
        saveFile gstore { file with status := Status.expired }⟩
    else issueGuestDownload bucket gstore file

/-- Controller `downloadFile` (download by id, the password-gated path): 404 when absent;
403 when not active; 410 when past expiry, with NO status flip and NO save;
for protected records a missing password is 401 and a non-matching one 403;
then issue the signed URL. -/
def downloadFile (now : Int) (bucket : String) (store : List FileRecord)
    (users : List User) (fileId : Nat) (password : Option String) : DlResult :=
  match findById store fileId with
  | none => ⟨Except.error ApiError.notFound, store, users⟩
  | some file =>
    if file.status ≠ Status.active then ⟨Except.error ApiError.unavailable, store, users⟩
    else if isExpiredAt now file then ⟨Except.error ApiError.expired, store, users⟩
    else if file.isPasswordProtected then
      if !strTruthy password then ⟨Except.error ApiError.passwordRequired, store, users⟩
      else if !bcryptCompare (password.getD "") (file.password.getD "") then
        ⟨Except.error ApiError.incorrectPassword, store, users⟩
      else issueDownload bucket store users file
    else issueDownload bucket store users file

/-- Result of `deleteFile`: outcome, file store, object-store key list. -/
structure DeleteResult where
  res : Except ApiError Unit
  files : List FileRecord
  blobs : List String
deriving Repr

/-- Controller `deleteFile`: 404 when absent; 400 when status is already deleted; then the
blob delete runs first (`storageOk` models whether the object-store call
succeeds — a throw lands in the catch-all 500 before `File.deleteOne` has run),
and only afterwards the record is removed from the store. -/
def deleteFile (store : List FileRecord) (blobs : List String) (storageOk : Bool)
    (fileId : Nat) : DeleteResult :=
  match findById store fileId with
  | none => ⟨Except.error ApiError.notFound, store, blobs⟩
  | some file =>
    if file.status = Status.deleted then ⟨Except.error ApiError.alreadyDeleted, store, blobs⟩
    else if storageOk then
      ⟨Except.ok (), store.eraseP (fun g => g.id == fileId), blobs.erase (buildKey file.name)⟩
    else ⟨Except.error ApiError.storageError, store, blobs⟩

/-- Result of an operation returning only a message over the user file store. -/
structure FileOpResult where
  res : Except ApiError Unit
  files : List FileRecord
deriving Repr

/-- Controller `updateFileExpiry`: 404 when absent; the body field `expiresAt` is only
applied when truthy (`if (expiresAt)`), recomputing the expiry as now plus
that many hours; the document is saved either way and 200 returned. -/
def updateFileExpiry (now : Int) (store : List FileRecord) (fileId : Nat)
    (expiresAt : Option Int) : FileOpResult :=
  match findById store fileId with
  | none => ⟨Except.error ApiError.notFound, store⟩
  | some file =>
    let f2 :=
      if numTruthy expiresAt then
        { file with expiresAt := some (now + (expiresAt.getD 0) * 3600000) }
      else file
    ⟨Except.ok (), saveFile store f2⟩

/-- The per-record mutation inside the `updateAllFileExpiry` loop: a record past
its expiry is marked expired with `hasExpiry := true`; any other record gets its
expiry reset to now plus 10 days with `hasExpiry := true`. -/
def sweepFile (now : Int) (f : FileRecord) : FileRecord :=
  if isExpiredAt now f then { f with status := Status.expired, hasExpiry := true }
  else { f with expiresAt := some (now + 10 * 24 * 60 * 60 * 1000), hasExpiry := true }

/-- The `for` loop of `updateAllFileExpiry` over the snapshot `pending`:
deleted records are skipped; every other document is mutated by `sweepFile`,
saved into the store, and pushed onto `updatedFiles`. Returns the final store
and the updated list, in iteration order. -/
def sweepLoop (now : Int) : List FileRecord → List FileRecord →
    List FileRecord × List FileRecord
  | [], store => (store, [])
  | f :: rest, store =>
    if f.status = Status.deleted then sweepLoop now rest store
    else
      let f2 := sweepFile now f
      let out := sweepLoop now rest (saveFile store f2)
      (out.1, f2 :: out.2)

/-- Result of `updateAllFileExpiry`: the list of touched records on success. -/
structure SweepResult where
  res : Except ApiError (List FileRecord)
  files : List FileRecord
deriving Repr

/-- Controller `updateAllFileExpiry`: 404 when the collection is empty, else run the sweep
loop over the full snapshot and return the touched records. -/
def updateAllFileExpiry (now : Int) (store : List FileRecord) : SweepResult :=
  if store.isEmpty then ⟨Except.error ApiError.notFound, store⟩
  else
    let out := sweepLoop now store store
    ⟨Except.ok out.2, out.1⟩

/-- Controller `updateFilePassword`: 404 when absent; 400 when the new password is falsy;
otherwise store the hash of the new password and save. No other field is
written — in particular `isPasswordProtected` is not touched. -/
def updateFilePassword (store : List FileRecord) (fileId : Nat)
    (newPassword : Option String) : FileOpResult :=
  match findById store fileId with
  | none => ⟨Except.error ApiError.notFound, store⟩
  | some file =>
    if !strTruthy newPassword then ⟨Except.error ApiError.passwordRequired, store⟩
    else
      ⟨Except.ok (),
        saveFile store { file with password := some (bcryptHash (newPassword.getD "")) }⟩

/-- Result of `generateShareShortenLink`: the new short URL on success. -/
structure LinkResult where
  res : Except ApiError String
  files : List FileRecord
deriving Repr

/-- Controller `generateShareShortenLink`: 404 when absent; overwrite `shortUrl` with
the BASE_URL environment value followed by `/f/` and the fresh code, save,
and return the new value. -/
def generateShareShortenLink (baseUrl : String) (store : List FileRecord)
    (fileId : Nat) (shortCode : String) : LinkResult :=
  match findById store fileId with
  | none => ⟨Except.error ApiError.notFound, store⟩
  | some file =>
    let f2 := { file with shortUrl := baseUrl ++ "/f/" ++ shortCode }
    ⟨Except.ok f2.shortUrl, saveFile store f2⟩

/-- Controller `resolveShareLink`: look up the BASE_URL-prefixed short URL; 404 when
absent; when past expiry, flip the status to expired, save, and return 410;
otherwise return the record snapshot (no status check, no counter change). -/
def resolveShareLink (now : Int) (baseUrl : String) (store : List FileRecord)
    (code : String) : Except ApiError FileRecord × List FileRecord :=
  match store.find? (fun f => f.shortUrl == baseUrl ++ "/f/" ++ code) with
  | none => (Except.error ApiError.notFound, store)
  | some file =>
    if isExpiredAt now file then
      (Except.error ApiError.expired, saveFile store { file with status := Status.expired })
    else (Except.ok file, store)

/-- Result of the password verification endpoints. -/
structure VerifyResult where
  res : Except ApiError Bool
  files : List FileRecord
deriving Repr

/-- Controller `verifyFilePassword`: 400 when the record is absent or not protected;
otherwise compare against the stored hash (401 on mismatch, success on match).
No branch saves anything. -/
def verifyFilePassword (store : List FileRecord) (shortCode password : String) :
    VerifyResult :=
  match store.find? (fun f => f.shortUrl == "/f/" ++ shortCode) with
  | none => ⟨Except.error ApiError.notProtected, store⟩
  | some file =>
    if !file.isPasswordProtected then ⟨Except.error ApiError.notProtected, store⟩
    else if !bcryptCompare password (file.password.getD "") then
      ⟨Except.error ApiError.incorrectPassword, store⟩
    else ⟨Except.ok true, store⟩

/-- Controller `verifyGuestFilePassword`: the same check over the guest store and the
`/g/` namespace. -/
def verifyGuestFilePassword (gstore : List FileRecord) (shortCode password : String) :
    VerifyResult :=
  match gstore.find? (fun f => f.shortUrl == "/g/" ++ shortCode) with
  | none => ⟨Except.error ApiError.notProtected, gstore⟩
  | some file =>
    if !file.isPasswordProtected then ⟨Except.error ApiError.notProtected, gstore⟩
    else if !bcryptCompare password (file.password.getD "") then
      ⟨Except.error ApiError.incorrectPassword, gstore⟩
    else ⟨Except.ok true, gstore⟩

/-! Store lemmas: how `saveFile` interacts with lookups when document ids are
unique, which the underlying store guarantees for Mongo `_id` values. -/

/-- Saving an unmodified document leaves the store unchanged when ids are unique. -/
theorem saveFile_self (store : List FileRecord) (f : FileRecord)
    (hnd : (store.map FileRecord.id).Nodup) (hmem : f ∈ store) :
    saveFile store f = store := by
  have hinj := List.inj_on_of_nodup_map hnd
  have hall : ∀ g ∈ store, (if g.id == f.id then f else g) = g := by
    intro g hg
    by_cases h : g.id = f.id
    · have hgf : g = f := hinj hg hmem h
      rw [hgf]; simp
    · simp [h]
  have h1 : store.map (fun g => if g.id == f.id then f else g) = store.map id :=
    List.map_congr_left hall
  unfold saveFile
  rw [h1, List.map_id]

/-- After saving a modified copy of the document that `find?` returns, the same
lookup returns the modified copy, when ids are unique and the predicate still
holds of the copy. -/
theorem find?_saveFile (store : List FileRecord) (p : FileRecord → Bool)
    (f f2 : FileRecord) (hnd : (store.map FileRecord.id).Nodup)
    (hf : store.find? p = some f) (hid : f2.id = f.id) (hp : p f2 = true) :
    (saveFile store f2).find? p = some f2 := by
  induction store with
  | nil => simp at hf
  | cons g rest ih =>
    rw [List.map_cons, List.nodup_cons] at hnd
    by_cases hpg : p g = true
    · rw [List.find?_cons_of_pos _ hpg] at hf
      have hgf : g = f := by injection hf
      subst hgf
      unfold saveFile
      rw [List.map_cons]
      have hhead : (if g.id == f2.id then f2 else g) = f2 := by simp [hid]
      rw [hhead, List.find?_cons_of_pos _ hp]
    · have hpg' : p g = false := by simpa using hpg
      rw [List.find?_cons_of_neg _ (by simp [hpg'])] at hf
      have hfm : f ∈ rest := List.mem_of_find?_eq_some hf
      have hgne : ¬ (g.id = f.id) := by
        intro hc
        apply hnd.1
        rw [hc]
        exact List.mem_map_of_mem FileRecord.id hfm
      unfold saveFile
      rw [List.map_cons]
      have hhead : (if g.id == f2.id then f2 else g) = g := by
        simp [hid, hgne]
      rw [hhead, List.find?_cons_of_neg _ (by simp [hpg'])]
      exact ih hnd.2 hf

/-- After saving a modified copy of a stored document, a lookup whose predicate
holds of the copy but of no original document returns the copy. -/
theorem find?_saveFile_fresh (store : List FileRecord) (p : FileRecord → Bool)
    (f f2 : FileRecord) (hnd : (store.map FileRecord.id).Nodup)
    (hmem : f ∈ store) (hid : f2.id = f.id)
    (hfresh : ∀ g ∈ store, p g = false) (hp : p f2 = true) :
    (saveFile store f2).find? p = some f2 := by
  induction store with
  | nil => cases hmem
  | cons g rest ih =>
    rw [List.map_cons, List.nodup_cons] at hnd
    unfold saveFile
    rw [List.map_cons]
    by_cases hgf : g.id = f.id
    · have hhead : (if g.id == f2.id then f2 else g) = f2 := by simp [hid, hgf]
      rw [hhead, List.find?_cons_of_pos _ hp]
    · have hhead : (if g.id == f2.id then f2 else g) = g := by simp [hid, hgf]
      have hfg : p g = false := hfresh g (List.mem_cons_self g rest)
      rw [hhead, List.find?_cons_of_neg _ (by simp [hfg])]
      have hfm : f ∈ rest := by
        cases List.mem_cons.mp hmem with
        | inl h => exact absurd (congrArg FileRecord.id h.symm) hgf
        | inr h => exact h
      exact ih hnd.2 hfm (fun x hx => hfresh x (List.mem_cons_of_mem g hx))

/-- A lookup fails on the saved store when the predicate holds neither of the
copy nor of any original document other than the one replaced. -/
theorem find?_saveFile_none (store : List FileRecord) (p : FileRecord → Bool)
    (f2 : FileRecord)
    (hfresh : ∀ g ∈ store, g.id ≠ f2.id → p g = false) (hp : p f2 = false) :
    (saveFile store f2).find? p = none := by
  rw [List.find?_eq_none]
  intro x hx
  unfold saveFile at hx
  obtain ⟨g, hg, hgx⟩ := List.mem_map.mp hx
  by_cases h : g.id = f2.id
  · rw [if_pos (by simp [h])] at hgx
    rw [← hgx]
    simp [hp]
  · rw [if_neg (by simp [h])] at hgx
    rw [← hgx]
    simp [hfresh g hg h]

/-- The sweep mutation never changes the document id. -/
theorem sweepFile_id (now : Int) (f : FileRecord) : (sweepFile now f).id = f.id := by
  unfold sweepFile
  split <;> rfl

/-- Saving a copy of the middle document of a store rewrites exactly that slot,
when no other slot shares its id. -/
theorem saveFile_append_cons (pre rest : List FileRecord) (f f2 : FileRecord)
    (hid : f2.id = f.id)
    (hpre : f.id ∉ pre.map FileRecord.id) (hrest : f.id ∉ rest.map FileRecord.id) :
    saveFile (pre ++ f :: rest) f2 = pre ++ f2 :: rest := by
  unfold saveFile
  rw [List.map_append, List.map_cons]
  have h1 : pre.map (fun g => if g.id == f2.id then f2 else g) = pre.map id := by
    apply List.map_congr_left
    intro g hg
    have hne : ¬ (g.id = f2.id) := by
      rw [hid]
      intro hc
      apply hpre
      rw [← hc]
      exact List.mem_map_of_mem FileRecord.id hg
    simp [hne]
  have h2 : rest.map (fun g => if g.id == f2.id then f2 else g) = rest.map id := by
    apply List.map_congr_left
    intro g hg
    have hne : ¬ (g.id = f2.id) := by
      rw [hid]
      intro hc
      apply hrest
      rw [← hc]
      exact List.mem_map_of_mem FileRecord.id hg
    simp [hne]
  have hhead : (if f.id == f2.id then f2 else f) = f2 := by simp [hid]
  rw [h1, h2, hhead, List.map_id, List.map_id]

/-- The success path always returns the signed URL for the record name. -/
theorem issueDownload_res (bucket : String) (store : List FileRecord)
    (users : List User) (file : FileRecord) :
    (issueDownload bucket store users file).res =
      Except.ok (signedDownloadUrl bucket (buildKey file.name) file.name) := by
  unfold issueDownload
  split <;> rfl

/-- The sweep loop over a suffix of the store: the final store rewrites every
processed non-deleted slot in place, and the updated list collects the swept
non-deleted documents in order. -/
theorem sweepLoop_spec (now : Int) :
    ∀ (suf pre : List FileRecord),
      (((pre ++ suf).map FileRecord.id).Nodup) →
      sweepLoop now suf (pre ++ suf) =
        (pre ++ suf.map (fun f => if f.status = Status.deleted then f else sweepFile now f),
         (suf.filter (fun f => f.status != Status.deleted)).map (sweepFile now)) := by
  intro suf
  induction suf with
  | nil =>
    intro pre h
    simp [sweepLoop]
  | cons f rest ih =>
    intro pre h
    have h' := h
    rw [List.map_append, List.map_cons, List.nodup_append] at h'
    obtain ⟨hn1, hn2, hdisj⟩ := h'
    rw [List.nodup_cons] at hn2
    have hrest : f.id ∉ rest.map FileRecord.id := hn2.1
    have hpre : f.id ∉ pre.map FileRecord.id := fun hc => hdisj hc (List.mem_cons_self _ _)
    simp only [sweepLoop]
    by_cases hdel : f.status = Status.deleted
    · rw [if_pos hdel]
      have hassoc : pre ++ f :: rest = (pre ++ [f]) ++ rest := by simp
      have h2 : (((pre ++ [f]) ++ rest).map FileRecord.id).Nodup := by
        rw [← hassoc]; exact h
      rw [hassoc, ih (pre ++ [f]) h2]
      simp [hdel]
    · rw [if_neg hdel]
      rw [saveFile_append_cons pre rest f (sweepFile now f) (sweepFile_id now f) hpre hrest]
      have hassoc : pre ++ sweepFile now f :: rest = (pre ++ [sweepFile now f]) ++ rest := by
        simp
      have h2 : (((pre ++ [sweepFile now f]) ++ rest).map FileRecord.id).Nodup := by
        rw [← hassoc]
        rw [List.map_append, List.map_cons, List.nodup_append, List.nodup_cons]
        rw [sweepFile_id]
        exact ⟨hn1, ⟨hrest, hn2.2⟩, hdisj⟩
      rw [hassoc, ih (pre ++ [sweepFile now f]) h2]
      simp [hdel]

/-! Concrete records used to instantiate the theorems. -/

/-- A plain active record reachable at short code `abc`, expiring at time 200. -/
def recActive : FileRecord :=
  { id := 1, name := "a.txt", mimeType := "text/plain", size := 10,
    path := "p", status := Status.active, hasExpiry := true,
    expiresAt := some 200, isPasswordProtected := false, password := none,
    shortUrl := "/f/abc", downloadedContent := 0, createdBy := "u1" }

/-- An active record whose expiry 50 lies before the sample clock 100. -/
def recPast : FileRecord := { recActive with id := 2, shortUrl := "/f/old", expiresAt := some 50 }

/-- A deleted record. -/
def recGone : FileRecord :=
  { recActive with id := 3, shortUrl := "/f/gone", status := Status.deleted }

/-- A password-protected active record, hash stored for password `pw1`. -/
def recLocked : FileRecord :=
  { recActive with
    id := 4, shortUrl := "/f/lock",
    isPasswordProtected := true, password := some (bcryptHash "pw1") }

/-- A password-protected active guest record at guest code `glock`. -/
def recGuestLocked : FileRecord :=
  { recLocked with id := 5, shortUrl := "/g/glock", createdBy := "guest_x" }

/-- C7: `updateAllFileExpiry` fails with NotFound on an empty collection;
otherwise it walks every record, skips the deleted ones, marks records past
their expiry as expired with `hasExpiry := true`, resets every other record's
expiry to now plus 10 days with `hasExpiry := true`, and returns the touched
records in order. -/
theorem updateAllFileExpiry_c7 (now : Int) (store : List FileRecord)
    (hnd : (store.map FileRecord.id).Nodup) :
    (store = [] →
      (updateAllFileExpiry now store).res = Except.error ApiError.notFound ∧
      (updateAllFileExpiry now store).files = store) ∧
    (store ≠ [] →
      (updateAllFileExpiry now store).res =
        Except.ok ((store.filter (fun f => f.status != Status.deleted)).map (sweepFile now)) ∧
      (updateAllFileExpiry now store).files =
        store.map (fun f => if f.status = Status.deleted then f else sweepFile now f) ∧
      (∀ f ∈ store, f.status ≠ Status.deleted →
        ((∃ e, f.expiresAt = some e ∧ e < now) →
          sweepFile now f = { f with status := Status.expired, hasExpiry := true }) ∧
        ((¬ ∃ e, f.expiresAt = some e ∧ e < now) →
          sweepFile now f =
            { f with expiresAt := some (now + 10 * 24 * 60 * 60 * 1000),
                     hasExpiry := true }))) := by
  constructor
  · intro h
    subst h
    exact ⟨rfl, rfl⟩
  · intro h
    have hspec := sweepLoop_spec now store [] (by simpa using hnd)
    simp only [List.nil_append] at hspec
    have hne : store.isEmpty = false := by simp [List.isEmpty_iff, h]
    refine ⟨?_, ?_, ?_⟩
    · simp only [updateAllFileExpiry, hne, Bool.false_eq_true, if_false, hspec]
    · simp only [updateAllFileExpiry, hne, Bool.false_eq_true, if_false, hspec]
    · intro f _ _
      constructor
      · rintro ⟨e, he, hlt⟩
        simp [sweepFile, isExpiredAt, he, hlt]
      · intro hne2
        cases hcase : f.expiresAt with
        | none => simp [sweepFile, isExpiredAt, hcase]
        | some e =>
          have hge : ¬ e < now := fun hlt => hne2 ⟨e, hcase, hlt⟩
          simp [sweepFile, isExpiredAt, hcase, hge]

/-- C7 witness: a three-record store with one record past expiry, one live and
one deleted, swept at time 100. -/
theorem updateAllFileExpiry_c7_witness :
    (updateAllFileExpiry 100 [recPast, recGone, recActive]).res =
      Except.ok (([recPast, recGone, recActive].filter
        (fun f => f.status != Status.deleted)).map (sweepFile 100)) ∧
    (updateAllFileExpiry 100 [recPast, recGone, recActive]).files =
      [recPast, recGone, recActive].map
        (fun f => if f.status = Status.deleted then f else sweepFile 100 f) := by
  have h := (updateAllFileExpiry_c7 100 [recPast, recGone, recActive] (by decide)).2
    (by decide)
  exact ⟨h.1, h.2.1⟩

/-- C8: every created record (user or guest upload) has `expiresAt` equal to
the creation time plus the supplied hours when `hasExpiry` is the string
`true`, and otherwise creation time plus exactly 240 hours. -/
theorem upload_default_expiry_c8 (now hours : Int) (isPassword hasExpiry password : String)
    (fid : Nat) (furl fname fmt : String) (fsize : Nat) (code owner : String) :
    (hasExpiry = "true" →
      (uploadFileObj now isPassword hasExpiry hours password fid furl fname fmt fsize
          code owner).expiresAt = some (now + hours * 3600000) ∧
      (uploadGuestFileObj now isPassword hasExpiry hours password fid furl fname fmt fsize
          code owner).expiresAt = some (now + hours * 3600000)) ∧
    (hasExpiry ≠ "true" →
      (uploadFileObj now isPassword hasExpiry hours password fid furl fname fmt fsize
          code owner).expiresAt = some (now + 240 * 3600000) ∧
      (uploadGuestFileObj now isPassword hasExpiry hours password fid furl fname fmt fsize
          code owner).expiresAt = some (now + 240 * 3600000)) := by
  constructor
  · intro h
    constructor <;>
      simp [uploadFileObj, uploadGuestFileObj, h, apply_ite FileRecord.expiresAt]
  · intro h
    constructor <;>
      simp [uploadFileObj, uploadGuestFileObj, h, apply_ite FileRecord.expiresAt]

/-- C8 witness: an upload at time 0 without expiry lands at 240 hours, and one
with a 5-hour expiry lands at 5 hours. -/
theorem upload_default_expiry_c8_witness :
    (uploadFileObj 0 "false" "false" 5 "" 1 "u" "n" "t" 1 "c" "o").expiresAt =
      some ((0 : Int) + 240 * 3600000) ∧
    (uploadGuestFileObj 0 "false" "true" 5 "" 1 "u" "n" "t" 1 "c" "o").expiresAt =
      some ((0 : Int) + 5 * 3600000) :=
  ⟨((upload_default_expiry_c8 0 5 "false" "false" "" 1 "u" "n" "t" 1 "c" "o").2
      (by decide)).1,
   ((upload_default_expiry_c8 0 5 "false" "true" "" 1 "u" "n" "t" 1 "c" "o").1 rfl).2⟩

/-- C10: `updateFileExpiry` on an existing record succeeds with no error for a
missing, empty or zero hours value and leaves the store (hence the record's
`expiresAt`, `hasExpiry` and `status`) unchanged; a truthy hours value
recomputes only `expiresAt` as now plus that many hours, leaving `status` and
`hasExpiry` untouched. -/
theorem updateFileExpiry_frame_c10 (now : Int) (store : List FileRecord) (fid : Nat)
    (hours : Option Int) (f : FileRecord)
    (hnd : (store.map FileRecord.id).Nodup)
    (hf : findById store fid = some f) :
    (numTruthy hours = false →
      (updateFileExpiry now store fid hours).res = Except.ok () ∧
      (updateFileExpiry now store fid hours).files = store) ∧
    (∀ v, hours = some v → v ≠ 0 →
      (updateFileExpiry now store fid hours).res = Except.ok () ∧
      (updateFileExpiry now store fid hours).files =
        saveFile store { f with expiresAt := some (now + v * 3600000) } ∧
      ({ f with expiresAt := some (now + v * 3600000) } : FileRecord).status = f.status ∧
      ({ f with expiresAt := some (now + v * 3600000) } : FileRecord).hasExpiry
        = f.hasExpiry) := by
  have hmem : f ∈ store := List.mem_of_find?_eq_some hf
  constructor
  · intro h
    have hcond : ¬ (numTruthy hours = true) := by simp [h]
    simp only [updateFileExpiry, hf]
    rw [if_neg hcond]
    exact ⟨trivial, saveFile_self store f hnd hmem⟩
  · intro v hv hv0
    subst hv
    have ht : numTruthy (some v) = true := by simp [numTruthy, hv0]
    simp only [updateFileExpiry, hf]
    rw [if_pos ht]
    exact ⟨trivial, rfl, trivial, trivial⟩

/-- C10 witness: a zero hours value leaves the single-record store untouched,
and a 2-hour value rewrites the expiry to now plus 2 hours. -/
theorem updateFileExpiry_frame_c10_witness :
    (updateFileExpiry 100 [recActive] 1 (some 0)).files = [recActive] ∧
    (updateFileExpiry 100 [recActive] 1 (some 2)).files =
      saveFile [recActive] { recActive with expiresAt := some (100 + 2 * 3600000) } :=
  ⟨((updateFileExpiry_frame_c10 100 [recActive] 1 (some 0) recActive (by decide)
      (by decide)).1 (by decide)).2,
   ((updateFileExpiry_frame_c10 100 [recActive] 1 (some 2) recActive (by decide)
      (by decide)).2 2 rfl (by decide)).2.1⟩

/-- C1 (amended): short-code resolution of an existing record succeeds with a
signed URL exactly when the record is active and its expiry is unset or has
not yet passed (`now ≤ expiresAt` — the source comparison is strict `<`, so
resolution still succeeds when `expiresAt` equals the current time); otherwise
it fails with Unavailable (403) or Expired (410), and with NotFound (404) when
no record carries the short code. Both the user and the guest path. -/
theorem downloadInfo_resolution_c1 (now : Int) (bucket code gcode : String)
    (store gstore : List FileRecord) (users : List User) (f g : FileRecord) :
    (store.find? (fun r => r.shortUrl == "/f/" ++ code) = some f →
      ((f.status = Status.active ∧
          (f.expiresAt = none ∨ ∃ e, f.expiresAt = some e ∧ now ≤ e)) ↔
        (downloadInfo now bucket store users code).res =
          Except.ok (signedDownloadUrl bucket (buildKey f.name) f.name)) ∧
      (∀ err, (downloadInfo now bucket store users code).res = Except.error err →
        (err = ApiError.unavailable ∧ httpStatus err = 403) ∨
        (err = ApiError.expired ∧ httpStatus err = 410))) ∧
    (store.find? (fun r => r.shortUrl == "/f/" ++ code) = none →
      (downloadInfo now bucket store users code).res = Except.error ApiError.notFound ∧
      httpStatus ApiError.notFound = 404) ∧
    (gstore.find? (fun r => r.shortUrl == "/g/" ++ gcode) = some g →
      ((g.status = Status.active ∧
          (g.expiresAt = none ∨ ∃ e, g.expiresAt = some e ∧ now ≤ e)) ↔
        (guestDownloadInfo now bucket gstore gcode).res =
          Except.ok (signedDownloadUrl bucket (buildKey g.name) g.name)) ∧
      (∀ err, (guestDownloadInfo now bucket gstore gcode).res = Except.error err →
        (err = ApiError.unavailable ∧ httpStatus err = 403) ∨
        (err = ApiError.expired ∧ httpStatus err = 410))) := by
  refine ⟨?_, ?_, ?_⟩
  · intro hf
    simp only [downloadInfo, hf]
    by_cases hact : f.status = Status.active
    · rw [if_neg (by simp [hact])]
      cases hexp : f.expiresAt with
      | none =>
        rw [if_neg (by simp [isExpiredAt, hexp])]
        refine ⟨⟨fun _ => issueDownload_res bucket store users f,
                 fun _ => ⟨hact, Or.inl rfl⟩⟩, ?_⟩
        intro err herr
        rw [issueDownload_res] at herr
        exact Except.noConfusion herr
      | some e =>
        by_cases hlt : e < now
        · rw [if_pos (by simp [isExpiredAt, hexp, hlt])]
          refine ⟨⟨?_, fun hok => Except.noConfusion hok⟩, ?_⟩
          · rintro ⟨-, hor⟩
            exfalso
            rcases hor with h0 | ⟨e2, he2, hge⟩
            · cases h0
            · have : e = e2 := by injection he2
              omega
          · intro err herr
            have herr2 : ApiError.expired = err := by injection herr
            right
            rw [← herr2]
            exact ⟨rfl, rfl⟩
        · rw [if_neg (by simp [isExpiredAt, hexp, hlt])]
          refine ⟨⟨fun _ => issueDownload_res bucket store users f,
                   fun _ => ⟨hact, Or.inr ⟨e, rfl, by omega⟩⟩⟩, ?_⟩
          intro err herr
          rw [issueDownload_res] at herr
          exact Except.noConfusion herr
    · rw [if_pos hact]
      refine ⟨⟨fun h => absurd h.1 hact, fun hok => Except.noConfusion hok⟩, ?_⟩
      intro err herr
      have herr2 : ApiError.unavailable = err := by injection herr
      left
      rw [← herr2]
      exact ⟨rfl, rfl⟩
  · intro hnone
    simp only [downloadInfo, hnone]
    exact ⟨trivial, rfl⟩
  · intro hg
    simp only [guestDownloadInfo, hg]
    by_cases hact : g.status = Status.active
    · rw [if_neg (by simp [hact])]
      cases hexp : g.expiresAt with
      | none =>
        rw [if_neg (by simp [isExpiredAt, hexp])]
        refine ⟨⟨fun _ => rfl, fun _ => ⟨hact, Or.inl rfl⟩⟩, ?_⟩
        intro err herr
        exact Except.noConfusion herr
      | some e =>
        by_cases hlt : e < now
        · rw [if_pos (by simp [isExpiredAt, hexp, hlt])]
          refine ⟨⟨?_, fun hok => Except.noConfusion hok⟩, ?_⟩
          · rintro ⟨-, hor⟩
            exfalso
            rcases hor with h0 | ⟨e2, he2, hge⟩
            · cases h0
            · have : e = e2 := by injection he2
              omega
          · intro err herr
            have herr2 : ApiError.expired = err := by injection herr
            right
            rw [← herr2]
            exact ⟨rfl, rfl⟩
        · rw [if_neg (by simp [isExpiredAt, hexp, hlt])]
          refine ⟨⟨fun _ => rfl, fun _ => ⟨hact, Or.inr ⟨e, rfl, by omega⟩⟩⟩, ?_⟩
          intro err herr
          exact Except.noConfusion herr
    · rw [if_pos hact]
      refine ⟨⟨fun h => absurd h.1 hact, fun hok => Except.noConfusion hok⟩, ?_⟩
      intro err herr
      have herr2 : ApiError.unavailable = err := by injection herr
      left
      rw [← herr2]
      exact ⟨rfl, rfl⟩

/-- C1 witness: the active record expiring at 200 resolves at time 100, and an
inactive-status guest lookup classifies as 403/410. -/
theorem downloadInfo_resolution_c1_witness :
    (downloadInfo 100 "b" [recActive] [] "abc").res =
      Except.ok (signedDownloadUrl "b" (buildKey recActive.name) recActive.name) :=
  ((downloadInfo_resolution_c1 100 "b" "abc" "x" [recActive] [] [] recActive
      recActive).1 (by decide)).1.mp ⟨rfl, Or.inr ⟨200, rfl, by decide⟩⟩

/-- C1 counterexample: when `expiresAt` equals the current time the record is
not strictly in the future, yet resolution succeeds — the strict-future
biconditional of the claim fails at this input. -/
theorem downloadInfo_c1_counterexample :
    (downloadInfo 200 "b" [recActive] [] "abc").res =
      Except.ok (signedDownloadUrl "b" (buildKey recActive.name) recActive.name) ∧
    ¬ (recActive.status = Status.active ∧
        (recActive.expiresAt = none ∨ ∃ e, recActive.expiresAt = some e ∧ 200 < e)) := by
  constructor
  · rfl
  · rintro ⟨-, h | ⟨e, he, hlt⟩⟩
    · simp [recActive] at h
    · have : (200 : Int) = e := by
        have h2 := he
        simp [recActive] at h2
        omega
      omega

/-- C9: both password-verification endpoints never write the store — so
`downloadedContent` and `status` are untouched and nothing is counted as a
download; they fail with NotProtected when the record is absent or not
protected, and otherwise the outcome is exactly the hash comparison. -/
theorem verifyPassword_c9 (store gstore : List FileRecord) (code gcode pw gpw : String) :
    (verifyFilePassword store code pw).files = store ∧
    (verifyGuestFilePassword gstore gcode gpw).files = gstore ∧
    (store.find? (fun r => r.shortUrl == "/f/" ++ code) = none →
      (verifyFilePassword store code pw).res = Except.error ApiError.notProtected) ∧
    (∀ f, store.find? (fun r => r.shortUrl == "/f/" ++ code) = some f →
      (f.isPasswordProtected = false →
        (verifyFilePassword store code pw).res = Except.error ApiError.notProtected) ∧
      (f.isPasswordProtected = true → ∀ h, f.password = some h →
        ((verifyFilePassword store code pw).res = Except.ok true ↔
          bcryptCompare pw h = true) ∧
        ((verifyFilePassword store code pw).res =
            Except.error ApiError.incorrectPassword ↔ bcryptCompare pw h = false))) ∧
    (gstore.find? (fun r => r.shortUrl == "/g/" ++ gcode) = none →
      (verifyGuestFilePassword gstore gcode gpw).res =
        Except.error ApiError.notProtected) ∧
    (∀ f, gstore.find? (fun r => r.shortUrl == "/g/" ++ gcode) = some f →
      (f.isPasswordProtected = false →
        (verifyGuestFilePassword gstore gcode gpw).res =
          Except.error ApiError.notProtected) ∧
      (f.isPasswordProtected = true → ∀ h, f.password = some h →
        ((verifyGuestFilePassword gstore gcode gpw).res = Except.ok true ↔
          bcryptCompare gpw h = true))) := by
  refine ⟨?_, ?_, ?_, ?_, ?_, ?_⟩
  · unfold verifyFilePassword
    split
    · rfl
    · split
      · rfl
      · split <;> rfl
  · unfold verifyGuestFilePassword
    split
    · rfl
    · split
      · rfl
      · split <;> rfl
  · intro hnone
    simp only [verifyFilePassword, hnone]
  · intro f hfind
    constructor
    · intro hprot
      simp only [verifyFilePassword, hfind]
      rw [if_pos (by simp [hprot])]
    · intro hprot h hpw
      simp only [verifyFilePassword, hfind]
      rw [if_neg (by simp [hprot]), hpw]
      by_cases hc : bcryptCompare pw h = true
      · rw [if_neg (by simp [Option.getD_some, hc])]
        exact ⟨⟨fun _ => hc, fun _ => rfl⟩,
          ⟨fun he => Except.noConfusion he, fun hfalse => by rw [hc] at hfalse; cases hfalse⟩⟩
      · have hc' : bcryptCompare pw h = false := by simpa using hc
        rw [if_pos (by simp [Option.getD_some, hc'])]
        exact ⟨⟨fun he => Except.noConfusion he, fun htrue => by rw [hc'] at htrue; cases htrue⟩,
          ⟨fun _ => hc', fun _ => rfl⟩⟩
  · intro hnone
    simp only [verifyGuestFilePassword, hnone]
  · intro f hfind
    constructor
    · intro hprot
      simp only [verifyGuestFilePassword, hfind]
      rw [if_pos (by simp [hprot])]
    · intro hprot h hpw
      simp only [verifyGuestFilePassword, hfind]
      rw [if_neg (by simp [hprot]), hpw]
      by_cases hc : bcryptCompare gpw h = true
      · rw [if_neg (by simp [Option.getD_some, hc])]
        exact ⟨fun _ => hc, fun _ => rfl⟩
      · have hc' : bcryptCompare gpw h = false := by simpa using hc
        rw [if_pos (by simp [Option.getD_some, hc'])]
        exact ⟨fun he => Except.noConfusion he, fun htrue => by rw [hc'] at htrue; cases htrue⟩

/-- C9 witness: verifying the right and the wrong password against the locked
record leaves the one-record store unchanged and returns the comparison. -/
theorem verifyPassword_c9_witness :
    (verifyFilePassword [recLocked] "lock" "pw1").files = [recLocked] ∧
    (verifyFilePassword [recLocked] "lock" "pw1").res = Except.ok true ∧
    (verifyFilePassword [recLocked] "lock" "bad").res =
      Except.error ApiError.incorrectPassword ∧
    (verifyGuestFilePassword [recGuestLocked] "glock" "pw1").res = Except.ok true := by
  have h1 := verifyPassword_c9 [recLocked] [recGuestLocked] "lock" "glock" "pw1" "pw1"
  have h2 := verifyPassword_c9 [recLocked] [recGuestLocked] "lock" "glock" "bad" "bad"
  refine ⟨h1.1, ?_, ?_, ?_⟩
  · exact (((h1.2.2.2.1 recLocked (by decide)).2 rfl (bcryptHash "pw1") rfl).1).mpr
      (by decide)
  · exact (((h2.2.2.2.1 recLocked (by decide)).2 rfl (bcryptHash "pw1") rfl).2).mpr
      (by decide)
  · exact (((h1.2.2.2.2.2 recGuestLocked (by decide)).2 rfl (bcryptHash "pw1") rfl)).mpr
      (by decide)

/-- C6: deleting a share fails with NotFound for an absent record and with
AlreadyDeleted whenever the status is deleted; otherwise the blob delete runs
first, and when it fails the store error is surfaced as a 500 with the record
and blob list untouched; only when it succeeds are the blob and then the
record removed. -/
theorem deleteShare_c6 (store : List FileRecord) (blobs : List String)
    (storageOk : Bool) (fid : Nat) :
    (findById store fid = none →
      (deleteFile store blobs storageOk fid).res = Except.error ApiError.notFound ∧
      (deleteFile store blobs storageOk fid).files = store ∧
      (deleteFile store blobs storageOk fid).blobs = blobs) ∧
    (∀ f, findById store fid = some f →
      (f.status = Status.deleted →
        (deleteFile store blobs storageOk fid).res =
          Except.error ApiError.alreadyDeleted ∧
        (deleteFile store blobs storageOk fid).files = store ∧
        (deleteFile store blobs storageOk fid).blobs = blobs) ∧
      (f.status ≠ Status.deleted →
        (storageOk = false →
          (deleteFile store blobs storageOk fid).res =
            Except.error ApiError.storageError ∧
          httpStatus ApiError.storageError = 500 ∧
          (deleteFile store blobs storageOk fid).files = store ∧
          (deleteFile store blobs storageOk fid).blobs = blobs) ∧
        (storageOk = true →
          (deleteFile store blobs storageOk fid).res = Except.ok () ∧
          (deleteFile store blobs storageOk fid).files =
            store.eraseP (fun g => g.id == fid) ∧
          (deleteFile store blobs storageOk fid).blobs =
            blobs.erase (buildKey f.name)))) := by
  constructor
  · intro h
    simp only [deleteFile, h]
    exact ⟨trivial, trivial, trivial⟩
  · intro f hf
    constructor
    · intro hdel
      simp only [deleteFile, hf]
      rw [if_pos hdel]
      exact ⟨rfl, rfl, rfl⟩
    · intro hdel
      constructor
      · intro hbad
        subst hbad
        simp only [deleteFile, hf]
        rw [if_neg hdel]
        exact ⟨rfl, rfl, rfl, rfl⟩
      · intro hok
        subst hok
        simp only [deleteFile, hf]
        rw [if_neg hdel]
        exact ⟨rfl, rfl, rfl⟩

/-- C6 witness: a failing blob delete leaves the record in place with a 500;
a succeeding one removes blob then record; a deleted record yields 400. -/
theorem deleteShare_c6_witness :
    (deleteFile [recActive] [buildKey recActive.name] false 1).res =
      Except.error ApiError.storageError ∧
    (deleteFile [recActive] [buildKey recActive.name] false 1).files = [recActive] ∧
    (deleteFile [recActive] [buildKey recActive.name] true 1).files =
      [recActive].eraseP (fun g => g.id == 1) ∧
    (deleteFile [recActive] [buildKey recActive.name] true 1).blobs =
      [buildKey recActive.name].erase (buildKey recActive.name) ∧
    (deleteFile [recGone] [] true 3).res = Except.error ApiError.alreadyDeleted := by
  have hbad := ((deleteShare_c6 [recActive] [buildKey recActive.name] false 1).2
    recActive (by decide)).2 (by decide)
  have hok := ((deleteShare_c6 [recActive] [buildKey recActive.name] true 1).2
    recActive (by decide)).2 (by decide)
  have hgone := ((deleteShare_c6 [recGone] [] true 3).2 recGone (by decide)).1 rfl
  exact ⟨(hbad.1 rfl).1, (hbad.1 rfl).2.2.1, (hok.2 rfl).2.1, (hok.2 rfl).2.2, hgone.1⟩

/-- C3: an active, unexpired, password-protected record resolves through the
short-code paths (user and guest) to a working signed URL with no password
anywhere in the request, while the download-by-id path on the same record
without a password fails with 401 PasswordRequired. -/
theorem shortcode_password_bypass_c3 (now : Int) (bucket code gcode : String)
    (store gstore : List FileRecord) (users : List User) (f g : FileRecord) (fid : Nat)
    (hf : store.find? (fun r => r.shortUrl == "/f/" ++ code) = some f)
    (hact : f.status = Status.active) (hexp : isExpiredAt now f = false)
    (hprot : f.isPasswordProtected = true) :
    (downloadInfo now bucket store users code).res =
      Except.ok (signedDownloadUrl bucket (buildKey f.name) f.name) ∧
    (gstore.find? (fun r => r.shortUrl == "/g/" ++ gcode) = some g →
      g.status = Status.active → isExpiredAt now g = false →
      g.isPasswordProtected = true →
      (guestDownloadInfo now bucket gstore gcode).res =
        Except.ok (signedDownloadUrl bucket (buildKey g.name) g.name)) ∧
    (findById store fid = some f →
      (downloadFile now bucket store users fid none).res =
        Except.error ApiError.passwordRequired ∧
      httpStatus ApiError.passwordRequired = 401) := by
  refine ⟨?_, ?_, ?_⟩
  · simp only [downloadInfo, hf]
    rw [if_neg (by simp [hact]), if_neg (by simp [hexp])]
    exact issueDownload_res bucket store users f
  · intro hg hgact hgexp _
    simp only [guestDownloadInfo, hg]
    rw [if_neg (by simp [hgact]), if_neg (by simp [hgexp])]
    rfl
  · intro hbyid
    simp only [downloadFile, hbyid]
    rw [if_neg (by simp [hact]), if_neg (by simp [hexp]), if_pos hprot,
      if_pos (by decide)]
    exact ⟨rfl, rfl⟩

/-- C3 witness: the locked record resolves by short code with no password and
its by-id download without a password is refused with 401. -/
theorem shortcode_password_bypass_c3_witness :
    (downloadInfo 100 "b" [recLocked] [] "lock").res =
      Except.ok (signedDownloadUrl "b" (buildKey recLocked.name) recLocked.name) ∧
    (guestDownloadInfo 100 "b" [recGuestLocked] "glock").res =
      Except.ok (signedDownloadUrl "b" (buildKey recGuestLocked.name)
        recGuestLocked.name) ∧
    (downloadFile 100 "b" [recLocked] [] 4 none).res =
      Except.error ApiError.passwordRequired := by
  have h := shortcode_password_bypass_c3 100 "b" "lock" "glock" [recLocked]
    [recGuestLocked] [] recLocked recGuestLocked 4 (by decide) rfl (by decide) rfl
  exact ⟨h.1, h.2.1 (by decide) rfl (by decide) rfl, (h.2.2 (by decide)).1⟩

/-- C2 (amended): on the short-code path, an active record past its expiry is
flipped to expired and that flip is persisted before the 410 is returned; the
download-by-id path returns 410 for the same record WITHOUT flipping or
persisting anything; and a second short-code resolution of the flipped record
fails with Unavailable (403) — not Expired — again with no state change. -/
theorem lazy_expiry_c2 (now : Int) (bucket code : String) (store : List FileRecord)
    (users : List User) (f : FileRecord) (e : Int) (fid : Nat) (pw : Option String)
    (hnd : (store.map FileRecord.id).Nodup)
    (hf : store.find? (fun r => r.shortUrl == "/f/" ++ code) = some f)
    (hact : f.status = Status.active)
    (he : f.expiresAt = some e) (hlt : e < now) :
    (downloadInfo now bucket store users code).res = Except.error ApiError.expired ∧
    (downloadInfo now bucket store users code).files =
      saveFile store { f with status := Status.expired } ∧
    (downloadInfo now bucket store users code).users = users ∧
    (downloadInfo now bucket
        (saveFile store { f with status := Status.expired }) users code).res =
      Except.error ApiError.unavailable ∧
    (downloadInfo now bucket
        (saveFile store { f with status := Status.expired }) users code).files =
      saveFile store { f with status := Status.expired } ∧
    (findById store fid = some f →
      (downloadFile now bucket store users fid pw).res = Except.error ApiError.expired ∧
      (downloadFile now bucket store users fid pw).files = store ∧
      (downloadFile now bucket store users fid pw).users = users) := by
  have hie : isExpiredAt now f = true := by simp [isExpiredAt, he, hlt]
  have hfind2 : (saveFile store { f with status := Status.expired }).find?
      (fun r => r.shortUrl == "/f/" ++ code) = some { f with status := Status.expired } := by
    apply find?_saveFile store (fun r => r.shortUrl == "/f/" ++ code) f
      { f with status := Status.expired } hnd hf rfl
    simpa using List.find?_some hf
  refine ⟨?_, ?_, ?_, ?_, ?_, ?_⟩
  · simp only [downloadInfo, hf]
    rw [if_neg (by simp [hact]), if_pos hie]
  · simp only [downloadInfo, hf]
    rw [if_neg (by simp [hact]), if_pos hie]
  · simp only [downloadInfo, hf]
    rw [if_neg (by simp [hact]), if_pos hie]
  · simp only [downloadInfo, hfind2]
    rw [if_pos (by simp)]
  · simp only [downloadInfo, hfind2]
    rw [if_pos (by simp)]
  · intro hbyid
    simp only [downloadFile, hbyid]
    rw [if_neg (by simp [hact]), if_pos hie]
    exact ⟨rfl, rfl, rfl⟩

/-- C2 witness: the record expiring at 50 accessed at 100 turns expired and is
persisted on the short-code path, then reads Unavailable, while the by-id
path returns Expired with the store untouched. -/
theorem lazy_expiry_c2_witness :
    (downloadInfo 100 "b" [recPast] [] "old").res = Except.error ApiError.expired ∧
    (downloadInfo 100 "b" [recPast] [] "old").files =
      saveFile [recPast] { recPast with status := Status.expired } ∧
    (downloadInfo 100 "b"
        (saveFile [recPast] { recPast with status := Status.expired }) [] "old").res =
      Except.error ApiError.unavailable ∧
    (downloadFile 100 "b" [recPast] [] 2 none).res = Except.error ApiError.expired ∧
    (downloadFile 100 "b" [recPast] [] 2 none).files = [recPast] := by
  have h := lazy_expiry_c2 100 "b" "old" [recPast] [] recPast 50 2 none (by decide)
    (by decide) rfl rfl (by decide)
  exact ⟨h.1, h.2.1, h.2.2.2.1, (h.2.2.2.2.2 (by decide)).1, (h.2.2.2.2.2 (by decide)).2.1⟩

/-- C2 counterexample: the by-id path does not flip or persist the expired
status (the store still holds the record with status active), and re-resolving
an already-flipped record yields Unavailable, not Expired — both contradicting
the claim that every path flips and that re-resolution still returns Expired. -/
theorem lazy_expiry_c2_counterexample :
    (downloadFile 100 "b" [recPast] [] 2 none).res = Except.error ApiError.expired ∧
    (downloadFile 100 "b" [recPast] [] 2 none).files = [recPast] ∧
    recPast.status = Status.active ∧
    (downloadInfo 100 "b"
        (downloadInfo 100 "b" [recPast] [] "old").files [] "old").res =
      Except.error ApiError.unavailable ∧
    ApiError.unavailable ≠ ApiError.expired := by
  exact ⟨rfl, rfl, rfl, rfl, by decide⟩

/-- C4 (amended): on an existing record, `updateFilePassword` fails with
PasswordRequired for an empty or missing new password and otherwise stores the
hash of the new password, leaving `isPasswordProtected` (and every other
field) unchanged — so it can neither remove nor grant the protected flag. -/
theorem setPassword_c4 (store : List FileRecord) (fid : Nat)
    (newPassword : Option String) (f : FileRecord)
    (hf : findById store fid = some f) :
    (strTruthy newPassword = false →
      (updateFilePassword store fid newPassword).res =
        Except.error ApiError.passwordRequired ∧
      (updateFilePassword store fid newPassword).files = store) ∧
    (∀ p, newPassword = some p → p ≠ "" →
      (updateFilePassword store fid newPassword).res = Except.ok () ∧
      (updateFilePassword store fid newPassword).files =
        saveFile store { f with password := some (bcryptHash p) } ∧
      ({ f with password := some (bcryptHash p) } : FileRecord).isPasswordProtected =
        f.isPasswordProtected) := by
  constructor
  · intro h
    simp only [updateFilePassword, hf]
    rw [if_pos (by simp [h])]
    constructor <;> trivial
  · intro p hp hp0
    subst hp
    have ht : strTruthy (some p) = true := by simp [strTruthy, hp0]
    simp only [updateFilePassword, hf]
    rw [if_neg (by simp [ht])]
    refine ⟨?_, ?_, ?_⟩ <;> trivial

/-- C4 witness: an empty password is refused; a fresh one is hashed and stored
on the locked record. -/
theorem setPassword_c4_witness :
    (updateFilePassword [recLocked] 4 (some "")).res =
      Except.error ApiError.passwordRequired ∧
    (updateFilePassword [recLocked] 4 (some "q")).files =
      saveFile [recLocked] { recLocked with password := some (bcryptHash "q") } := by
  have h1 := (setPassword_c4 [recLocked] 4 (some "") recLocked (by decide)).1 (by decide)
  have h2 := (setPassword_c4 [recLocked] 4 (some "q") recLocked (by decide)).2 "q" rfl
    (by decide)
  exact ⟨h1.1, h2.2.1⟩

/-- C4 counterexample: storing a new password on an unprotected record leaves
`isPasswordProtected` at false — the endpoint never writes that flag, against
the claim that it is set to true unconditionally. -/
theorem setPassword_c4_counterexample :
    (updateFilePassword [recActive] 1 (some "npw")).res = Except.ok () ∧
    (updateFilePassword [recActive] 1 (some "npw")).files.head?.map
      FileRecord.isPasswordProtected = some false ∧
    (updateFilePassword [recActive] 1 (some "npw")).files.head?.map
      FileRecord.password = some (some (bcryptHash "npw")) := by
  exact ⟨rfl, rfl, rfl⟩

/-- A nonempty string prepended to another changes it. -/
theorem append_ne_of_left_ne_empty (s t : String) (h : s ≠ "") : s ++ t ≠ t := by
  intro he
  have hl := congrArg String.length he
  rw [String.length_append] at hl
  have h0 : s.length = 0 := by omega
  have hd : s.data.length = 0 := by
    have := String.length_data s
    omega
  have hnil : s.data = [] := List.eq_nil_of_length_eq_zero hd
  apply h
  cases s with
  | mk d => simp_all

/-- C5 (amended): `generateShareShortenLink` overwrites the record's shortUrl
with BASE_URL followed by `/f/` and a fresh code — not the bare `/f/{code}`
form produced at upload. The rotated link therefore resolves through
`resolveShareLink`, which searches the BASE_URL-prefixed namespace, and
returns the updated record; the old code no longer resolves via `downloadInfo`;
and whenever BASE_URL is nonempty the new code does not resolve via
`downloadInfo` (the `/f/{code}` lookup) either. -/
theorem generateShortLink_c5 (now : Int) (bucket baseUrl oldCode newCode : String)
    (store : List FileRecord) (users : List User) (f : FileRecord) (fid : Nat)
    (hnd : (store.map FileRecord.id).Nodup)
    (hf : findById store fid = some f)
    (huniq : ∀ g ∈ store, g.shortUrl = "/f/" ++ oldCode → g = f)
    (hfresh : ∀ g ∈ store, g.shortUrl ≠ baseUrl ++ "/f/" ++ newCode)
    (hbare : ∀ g ∈ store, g.shortUrl ≠ "/f/" ++ newCode)
    (hnexp : isExpiredAt now f = false)
    (hnew : baseUrl ++ "/f/" ++ newCode ≠ "/f/" ++ oldCode) :
    (generateShareShortenLink baseUrl store fid newCode).res =
      Except.ok (baseUrl ++ "/f/" ++ newCode) ∧
    (generateShareShortenLink baseUrl store fid newCode).files =
      saveFile store { f with shortUrl := baseUrl ++ "/f/" ++ newCode } ∧
    (resolveShareLink now baseUrl
        (saveFile store { f with shortUrl := baseUrl ++ "/f/" ++ newCode }) newCode).1 =
      Except.ok { f with shortUrl := baseUrl ++ "/f/" ++ newCode } ∧
    (downloadInfo now bucket
        (saveFile store { f with shortUrl := baseUrl ++ "/f/" ++ newCode }) users
        oldCode).res = Except.error ApiError.notFound ∧
    (baseUrl ≠ "" →
      (downloadInfo now bucket
          (saveFile store { f with shortUrl := baseUrl ++ "/f/" ++ newCode }) users
          newCode).res = Except.error ApiError.notFound) := by
  have hmem : f ∈ store := List.mem_of_find?_eq_some hf
  refine ⟨?_, ?_, ?_, ?_, ?_⟩
  · simp only [generateShareShortenLink, hf]
  · simp only [generateShareShortenLink, hf]
  · have hfind : (saveFile store { f with shortUrl := baseUrl ++ "/f/" ++ newCode }).find?
        (fun r => r.shortUrl == baseUrl ++ "/f/" ++ newCode) =
        some { f with shortUrl := baseUrl ++ "/f/" ++ newCode } := by
      apply find?_saveFile_fresh store (fun r => r.shortUrl == baseUrl ++ "/f/" ++ newCode)
        f { f with shortUrl := baseUrl ++ "/f/" ++ newCode } hnd hmem rfl
      · intro g hg
        simp [hfresh g hg]
      · simp
    simp only [resolveShareLink, hfind]
    rw [if_neg (by simp [show isExpiredAt now
      { f with shortUrl := baseUrl ++ "/f/" ++ newCode } = false from hnexp])]
  · have hnone : (saveFile store { f with shortUrl := baseUrl ++ "/f/" ++ newCode }).find?
        (fun r => r.shortUrl == "/f/" ++ oldCode) = none := by
      apply find?_saveFile_none
      · intro g hg hgid
        simp only [beq_eq_false_iff_ne, ne_eq]
        intro hc
        have hgf : g = f := huniq g hg hc
        exact hgid (by rw [hgf])
      · simpa using hnew
    simp only [downloadInfo, hnone]
  · intro hb
    have hnone : (saveFile store { f with shortUrl := baseUrl ++ "/f/" ++ newCode }).find?
        (fun r => r.shortUrl == "/f/" ++ newCode) = none := by
      apply find?_saveFile_none
      · intro g hg _
        simp [hbare g hg]
      · simp only [beq_eq_false_iff_ne, ne_eq]
        rw [String.append_assoc]
        exact append_ne_of_left_ne_empty baseUrl ("/f/" ++ newCode) hb
    simp only [downloadInfo, hnone]

/-- C5 witness: rotating the link of the sample record under a nonempty
BASE_URL makes the record resolvable only through the BASE_URL-prefixed
lookup; neither the old nor the new code resolves via `downloadInfo`. -/
theorem generateShortLink_c5_witness :
    (generateShareShortenLink "https://s" [recActive] 1 "zzz").res =
      Except.ok ("https://s" ++ "/f/" ++ "zzz") ∧
    (resolveShareLink 100 "https://s"
        (saveFile [recActive] { recActive with shortUrl := "https://s" ++ "/f/" ++ "zzz" })
        "zzz").1 =
      Except.ok { recActive with shortUrl := "https://s" ++ "/f/" ++ "zzz" } ∧
    (downloadInfo 100 "b"
        (saveFile [recActive] { recActive with shortUrl := "https://s" ++ "/f/" ++ "zzz" })
        [] "abc").res = Except.error ApiError.notFound ∧
    (downloadInfo 100 "b"
        (saveFile [recActive] { recActive with shortUrl := "https://s" ++ "/f/" ++ "zzz" })
        [] "zzz").res = Except.error ApiError.notFound := by
  have h := generateShortLink_c5 100 "b" "https://s" "abc" "zzz" [recActive] [] recActive 1
    (by decide) (by decide) (by decide) (by decide) (by decide) (by decide) (by decide)
  exact ⟨h.1, h.2.2.1, h.2.2.2.1, h.2.2.2.2 (by decide)⟩

/-- C5 counterexample: after rotation under BASE_URL `https://s` the stored
shortUrl is the BASE_URL-prefixed value, not the bare `/f/zzz` the claim
requires, and the short-code resolution path (`downloadInfo`, which looks up
`/f/zzz`) does not return the record but 404. -/
theorem generateShortLink_c5_counterexample :
    (generateShareShortenLink "https://s" [recActive] 1 "zzz").files.head?.map
      FileRecord.shortUrl = some ("https://s" ++ "/f/" ++ "zzz") ∧
    ("https://s" ++ "/f/" ++ "zzz" : String) ≠ "/f/" ++ "zzz" ∧
    (downloadInfo 100 "b"
        (generateShareShortenLink "https://s" [recActive] 1 "zzz").files [] "zzz").res =
      Except.error ApiError.notFound := by
  exact ⟨rfl, by decide, rfl⟩

end PasteBox
